import Mathlib

/-!
# Formal model of the AWS flow-log analyzer (`flowlog_parser.py`)

A shallow embedding of the repository's flow-log parser.  Pure string and
arithmetic helpers model the Python primitives the source relies on
(`str.split()`, `int()`, `str.lower()`); the stateful analysis loop
`DefaultFlowLogsParser._analyze_flow_logs` becomes explicit state passing over
an `AggState` record; fallible loaders (`TagMappings.process`,
`ProtoMappings.process`) return `Except`; file I/O is abstracted by passing the
file's parsed content as an `Option` (with `none` standing for a file that
cannot be opened).
-/

namespace FlowLog

/-! ## Models of the Python primitives -/

/-- Digit-run tail of Python `int()` parsing: after at least one digit has been
read into `acc`, consume further digits, allowing a single underscore between
two digits (Python 3 numeric-literal grammar). -/
def pyDigits : Nat → List Char → Option Nat
  | acc, [] => some acc
  | acc, c :: cs =>
    if c.isDigit then pyDigits (10 * acc + (c.toNat - 48)) cs
    else if c = '_' then
      match cs with
      | c2 :: cs2 =>
        if c2.isDigit then pyDigits (10 * acc + (c2.toNat - 48)) cs2 else none
      | [] => none
    else none

/-- Unsigned core of Python `int()`: a nonempty digit string (first character
must be a digit; underscores only between digits). -/
def pyIntCore : List Char → Option Nat
  | [] => none
  | c :: cs => if c.isDigit then pyDigits (c.toNat - 48) cs else none

/-- Strip leading and trailing whitespace from a character list (Python
`str.strip()` as `int()` applies it to its argument). -/
def pyStrip (l : List Char) : List Char :=
  ((l.dropWhile Char.isWhitespace).reverse.dropWhile Char.isWhitespace).reverse

/-- Model of Python `int(s)` on ASCII input: optional surrounding whitespace
(stripped), an optional single `+`/`-` sign, then a nonempty digit run.
Returns `none` where Python raises `ValueError`. -/
def pyInt (s : String) : Option Int :=
  match pyStrip s.data with
  | '+' :: rest => (pyIntCore rest).map (fun n => (n : Int))
  | '-' :: rest => (pyIntCore rest).map (fun n => -(n : Int))
  | l => (pyIntCore l).map (fun n => (n : Int))

/-- Worker for `pySplit`: `acc` holds the characters of the current field in
reverse; a whitespace character closes the current field (if nonempty). -/
def pySplitAux : List Char → List Char → List String
  | acc, [] => if acc.isEmpty then [] else [String.mk acc.reverse]
  | acc, c :: cs =>
    if c.isWhitespace then
      if acc.isEmpty then pySplitAux [] cs
      else String.mk acc.reverse :: pySplitAux [] cs
    else pySplitAux (c :: acc) cs

/-- Model of Python `str.split()` with no separator: split on runs of
whitespace, discarding empty pieces (hence also leading/trailing whitespace,
which is why the source's preceding `.strip()` does not change the result). -/
def pySplit (s : String) : List String :=
  pySplitAux [] s.data

/-- Lower-case one ASCII character. -/
def pyLowerChar (c : Char) : Char :=
  if 'A' ≤ c && c ≤ 'Z' then Char.ofNat (c.toNat + 32) else c

/-- Model of Python `str.lower()` on ASCII input. -/
def pyLower (s : String) : String :=
  String.mk (s.data.map pyLowerChar)

/-! ## Count maps

Python `defaultdict(int)` result maps, embedded as association lists with
unique keys; `incr` is `d[k] += 1` (update an existing entry in place, or
append a new entry with count 1, matching dict insertion order). -/

/-- Association-list embedding of a `defaultdict(int)`. -/
abbrev CountMap (α : Type) := List (α × Nat)

/-- `d[k] += 1` on a `defaultdict(int)`. -/
def incr {α : Type} [DecidableEq α] : CountMap α → α → CountMap α
  | [], k => [(k, 1)]
  | (a, n) :: rest, k =>
    if a = k then (a, n + 1) :: rest else (a, n) :: incr rest k

/-- `d[k]` on a `defaultdict(int)` read without mutation (0 when absent). -/
def countOf {α : Type} [DecidableEq α] : CountMap α → α → Nat
  | [], _ => 0
  | (a, n) :: rest, k => if a = k then n else countOf rest k

/-- Sum of all values of a count map. -/
def sumCounts {α : Type} (m : CountMap α) : Nat :=
  (m.map Prod.snd).sum

/-- Generic dict lookup (`d[k]` / `k in d`), for the tag map and the protocol
table. -/
def lookup {α β : Type} [DecidableEq α] : List (α × β) → α → Option β
  | [], _ => none
  | (a, b) :: rest, k => if a = k then some b else lookup rest k

/-- Dict assignment `d[k] = v`: overwrite an existing binding, else append
(Python dict last-write-wins with insertion order). -/
def dictInsert {α β : Type} [DecidableEq α] : List (α × β) → α → β → List (α × β)
  | [], k, v => [(k, v)]
  | (a, b) :: rest, k, v =>
    if a = k then (a, v) :: rest else (a, b) :: dictInsert rest k v

/-! ## Constants from the source -/

def TAGMAP_PORT_IDX : Nat := 0
def TAGMAP_PROTO_IDX : Nat := 1
def TAGMAP_TAG_IDX : Nat := 2
def IPMF_PORT_IDX : Nat := 0
def IPMF_PROTO_IDX : Nat := 1
def CHUNK_SIZE : Nat := 1000
def V2_FIELDS_COUNT : Nat := 14
def V2_DST_PORT_IDX : Nat := 6
def V2_PROTO_NUM_IDX : Nat := 7

def TAG_COUNT_FH : String := "\nTag Counts:\nTag,Count\n"
def COMB_COUNT_FH : String := "\nPort/Protocol Combination Counts:\nPort,Protocol,Count\n"

/-! ## Data model -/

/-- The protocol table `self.table`: protocol number → protocol name. -/
abbrev ProtoTable := List (Int × String)

/-- The tag map `self.tag_map`: (port, protocol) → tag. -/
abbrev TagMap := List ((Int × String) × String)

/-- The parser's mutable aggregation state: `self.errors`, `self.tag_count`,
`self.combinations_count`. -/
structure AggState where
  errors : Nat
  tag_count : CountMap String
  combinations_count : CountMap (Int × String)
  deriving DecidableEq, Repr

/-- The state at construction time (`DefaultFlowLogsParser.__init__`). -/
def initState : AggState := ⟨0, [], []⟩

/-! ## The streaming analysis loop (`DefaultFlowLogsParser._analyze_flow_logs`) -/

/-- The paired increment of `tag_count` and `combinations_count` performed on
source lines 298–302 while `counts_lock` is held (the spec's
`Aggregator.record(port, protocolName, tag)`).  Because the lock makes the
pair a single atomic unit, a concurrent execution is a serialization of these
operations. -/
def record_op (s : AggState) (key : Int × String) (tag : String) : AggState :=
  { s with
    tag_count := incr s.tag_count tag
    combinations_count := incr s.combinations_count key }

/-- Lines 295–302 of the source: resolve the tag for `key` by exact dict
membership (`if key in self.tag_map.keys()`), then increment `tag_count` for
the resolved tag and `combinations_count` for `key`.  Both increments happen
together while `counts_lock` is held. -/
def record (tag_map : TagMap) (s : AggState) (key : Int × String) : AggState :=
  let tag := match lookup tag_map key with
    | some t => t
    | none => "Untagged"
  record_op s key tag

/-- One iteration of the `for line in lines` loop.  Returns `none` exactly
where the Python body raises an exception that the loop does NOT catch: the
`except (ValueError, IndexError)` clause does not cover the `KeyError` raised
by `self.table[int(fields[V2_PROTO_NUM_IDX])]` when the protocol number is
absent from the table.  Caught errors (`ValueError` from either `int()` call;
`IndexError` cannot occur since the length guard passed) increment
`self.errors`. -/
def processLine (table : ProtoTable) (tag_map : TagMap) (s : AggState)
    (line : String) : Option AggState :=
  if (pySplit line).length < V2_FIELDS_COUNT then
    some { s with errors := s.errors + 1 }
  else
    match pyInt ((pySplit line).getD V2_PROTO_NUM_IDX "") with
    | none => some { s with errors := s.errors + 1 }
    | some protoNum =>
      match lookup table protoNum with
      | none => none
      | some protocol_name =>
        match pyInt ((pySplit line).getD V2_DST_PORT_IDX "") with
        | none => some { s with errors := s.errors + 1 }
        | some dstport =>
          some (record tag_map s (dstport, pyLower protocol_name))

/-- `DefaultFlowLogsParser._analyze_flow_logs(lines)` on one chunk: iterate
`processLine`; an uncaught `KeyError` aborts the remaining lines of this chunk
(the exception propagates out of the method; mutations made before it remain,
so the state reached so far is kept). -/
def analyze_chunk (table : ProtoTable) (tag_map : TagMap) :
    AggState → List String → AggState
  | s, [] => s
  | s, line :: rest =>
    match processLine table tag_map s line with
    | some s2 => analyze_chunk table tag_map s2 rest
    | none => s

/-- Split a list into consecutive chunks of `n` (the `islice(handle,
CHUNK_SIZE)` read loop), with an explicit fuel argument for termination. -/
def chunksOfAux {α : Type} (n : Nat) : Nat → List α → List (List α)
  | 0, _ => []
  | _ + 1, [] => []
  | fuel + 1, a :: t => ((a :: t).take n) :: chunksOfAux n fuel ((a :: t).drop n)

/-- Split a list into consecutive chunks of `n` elements. -/
def chunksOf {α : Type} (n : Nat) (l : List α) : List (List α) :=
  chunksOfAux n l.length l

/-- The whole streaming stage over a file's lines: chunks of `CHUNK_SIZE`
lines, each handed to `_analyze_flow_logs`.  An exception escaping one chunk is
swallowed by the executor (the returned future is never inspected), so later
chunks are still processed. -/
def analyze_stream (table : ProtoTable) (tag_map : TagMap) (s : AggState)
    (lines : List String) : AggState :=
  (chunksOf CHUNK_SIZE lines).foldl (analyze_chunk table tag_map) s

/-! ## Mapping-file loaders

File contents are abstracted as already-tokenized CSV rows (`List (List
String)`), wrapped in `Option`: `none` models a file that cannot be opened
(the `open` call raises `IOError`). -/

/-- `read_csv_file`: returns the file's rows; the `except IOError: pass`
handler turns an unopenable file into the empty buffer. -/
def read_csv_file (file : Option (List (List String))) : List (List String) :=
  file.getD []

/-- `TagMappings.process`: rows whose first column is the literal header
`"dstport"` are skipped; each other row must yield
`(int(row[0]), row[1], row[2])`.  The `try` wraps the whole loop and both
`IndexError` (missing column) and `ValueError` (non-integer port) are
re-raised as a fatal `TagMappingsException`, modeled as `Except.error`. -/
def tagMappings_process : List (List String) → Except String (List (Int × String × String))
  | [] => .ok []
  | row :: rest =>
    match row.get? TAGMAP_PORT_IDX with
    | none => .error "IndexError"
    | some c0 =>
      if c0 = "dstport" then tagMappings_process rest
      else
        match pyInt c0 with
        | none => .error "ValueError"
        | some port =>
          match row.get? TAGMAP_PROTO_IDX with
          | none => .error "IndexError"
          | some proto =>
            match row.get? TAGMAP_TAG_IDX with
            | none => .error "IndexError"
            | some tag => (tagMappings_process rest).map (fun l => (port, proto, tag) :: l)

/-- `ProtoMappings.process`: each row yields `(int(row[0]),
row[1].lower())`.  The `try` wraps the whole loop: a `ValueError`
(non-integer first column) is caught OUTSIDE the loop with `pass`, so the
buffer accumulated so far is returned and all remaining rows are dropped; an
`IndexError` (missing column) raises a fatal `ProtoMappingsException`. -/
def protoMappings_process : List (List String) → Except String (List (Int × String))
  | [] => .ok []
  | row :: rest =>
    match row.get? IPMF_PORT_IDX with
    | none => .error "IndexError"
    | some c0 =>
      match pyInt c0 with
      | none => .ok []
      | some n =>
        match row.get? IPMF_PROTO_IDX with
        | none => .error "IndexError"
        | some c1 => (protoMappings_process rest).map (fun l => (n, pyLower c1) :: l)

/-- `GenericFlowLogParser.read_mappings_file`: with no mapping path
(`if not self.mapfile: return`) the tag map stays empty; otherwise the
processed triples populate `self.tag_map[(port, proto)] = tag` in order
(dict last-write-wins).  The outer `Option` is the configured path, the inner
`Option` the openable file content. -/
def read_mappings_file (mapfile : Option (Option (List (List String)))) :
    Except String TagMap :=
  match mapfile with
  | none => .ok []
  | some file =>
    (tagMappings_process (read_csv_file file)).map
      (fun buff => buff.foldl (fun m e => dictInsert m (e.1, e.2.1) e.2.2) [])

/-- `GenericFlowLogParser.read_proto_mappings`: with an external file the
processed pairs populate `self.table[num] = name`; with no file the table
comes from reflecting over the host `socket` module's `IPPROTO_*` constants,
which is host-runtime data and therefore passed in as `socketTable`. -/
def read_proto_mappings (socketTable : ProtoTable)
    (proto_map_file : Option (Option (List (List String)))) :
    Except String ProtoTable :=
  match proto_map_file with
  | none => .ok socketTable
  | some file =>
    (protoMappings_process (read_csv_file file)).map
      (fun buff => buff.foldl (fun t e => dictInsert t e.1 e.2) [])

/-! ## Output and the top-level streaming entry point -/

/-- `GenericFlowLogParser._write_output_file`: with no output path
(`if not self.outputfile: return`) nothing is written (`none`); otherwise the
two-section report text. -/
def write_output_file (outputGiven : Bool) (s : AggState) : Option String :=
  if !outputGiven then none
  else
    some (TAG_COUNT_FH
      ++ String.join (s.tag_count.map fun kv => kv.1 ++ " " ++ toString kv.2 ++ "\n")
      ++ COMB_COUNT_FH
      ++ String.join (s.combinations_count.map fun kv =>
            toString kv.1.1 ++ " " ++ kv.1.2 ++ " " ++ toString kv.2 ++ "\n"))

/-- `GenericFlowLogParser.analyze_flow_logs`: with no input path
(`if not self.flowlogs: return`) the method returns at once — note this early
return happens BEFORE the call to `_write_output_file`, so no report is
written either; otherwise the chunked streaming stage runs and then
`_write_output_file` is called on the final state.  Returns the final state
and the report written (`none` when none is). -/
def analyze_flow_logs (flowlogs : Option (List String)) (outputGiven : Bool)
    (table : ProtoTable) (tag_map : TagMap) (s : AggState) :
    AggState × Option String :=
  match flowlogs with
  | none => (s, none)
  | some lines =>
    let s2 := analyze_stream table tag_map s lines
    (s2, write_output_file outputGiven s2)

/-! ## Validation predicates (spec side) -/

/-- The spec's per-line validation predicate, written from the claim's words:
at least 14 whitespace-separated fields, and the destination-port field
(1-indexed position 7) and protocol-number field (position 8) both numeric
(parsed by Python `int()`). -/
def passes_validation (line : String) : Bool :=
  decide (V2_FIELDS_COUNT ≤ (pySplit line).length)
    && (pyInt ((pySplit line).getD V2_DST_PORT_IDX "")).isSome
    && (pyInt ((pySplit line).getD V2_PROTO_NUM_IDX "")).isSome

/-- A line is `KeyError`-free for `table` when its protocol-number field, if
it reaches the table lookup (≥ 14 fields and integer-parsing), is present in
`table`.  Exactly these lines avoid the uncaught `KeyError` of
`_analyze_flow_logs`. -/
def keyErrorFree (table : ProtoTable) (line : String) : Bool :=
  if V2_FIELDS_COUNT ≤ (pySplit line).length then
    match pyInt ((pySplit line).getD V2_PROTO_NUM_IDX "") with
    | some n => (lookup table n).isSome
    | none => true
  else true

/-! ## The Aggregator's atomic record operation, for the concurrency model -/

/-- A concurrent execution of `n` callers: a `trace` lists, in serialization
order, which caller performs each atomic `record_op`; caller `i` always uses
its own key `keys i` and tag `tags i`. -/
def runTrace {n : Nat} (keys : Fin n → Int × String) (tags : Fin n → String)
    (s : AggState) (trace : List (Fin n)) : AggState :=
  trace.foldl (fun st i => record_op st (keys i) (tags i)) s

/-! ## Concrete fixtures

Taken from the repository's unit tests (`test_flowlog_parser.py`) and the
spec's §8 examples. -/

/-- Protocol table mapping 6 → "tcp", as the unit test builds it
(`flp.table[6] = "tcp"`). -/
def tableTcp : ProtoTable := [(6, "tcp")]

/-- Tag map with (49153, "tcp") → "sv_P1" and (49154, "tcp") → "sv_P1". -/
def tagMapSv : TagMap :=
  [((49153, "tcp"), "sv_P1"), ((49154, "tcp"), "sv_P1")]

/-- The spec's mixed batch: two valid version-2 lines with mapped
(port, protocol) pairs, one valid line with an unmapped pair, and one empty
line. -/
def mixedLines : List String :=
  ["2 123456789012 eni-0a1b2c3d 10.0.1.201 198.51.100.2 443 49153 6 25 20000 1620140761 1620140821 ACCEPT OK",
   "2 123456789012 eni-4d3c2b1a 192.168.1.100 203.0.113.101 23 49154 6 15 12000 1620140761 1620140821 REJECT OK",
   "",
   "2 123456789012 eni-5e6f7g8h 192.168.1.101 198.51.100.3 25 49155 6 10 8000 1620140761 1620140821 ACCEPT OK"]

/-- A well-formed version-2 line (14 fields, numeric port and protocol)
whose protocol number 999 is absent from `tableTcp`. -/
def lineProto999 : String :=
  "2 123456789012 eni-0a1b2c3d 10.0.1.201 198.51.100.2 443 49153 999 25 20000 1620140761 1620140821 ACCEPT OK"

/-- A well-formed version-2 line with destination-port field "-1" and
protocol number 6. -/
def lineNegPort : String :=
  "2 123456789012 eni-0a1b2c3d 10.0.1.201 198.51.100.2 443 -1 6 25 20000 1620140761 1620140821 ACCEPT OK"

/-- A valid version-2 line with pair (49153, tcp). -/
def lineValid : String :=
  "2 123456789012 eni-0a1b2c3d 10.0.1.201 198.51.100.2 443 49153 6 25 20000 1620140761 1620140821 ACCEPT OK"

/-- Two concurrent callers' distinct keys. -/
def keys2 : Fin 2 → Int × String
  | 0 => (80, "tcp")
  | 1 => (443, "udp")

/-- Two concurrent callers' tags. -/
def tags2 : Fin 2 → String
  | 0 => "web"
  | 1 => "dns"

/-- An interleaved serialization of two callers, two operations each. -/
def trace2 : List (Fin 2) := [0, 1, 1, 0]

/-! ## Helper lemmas -/

theorem sumCounts_incr {α : Type} [DecidableEq α] (m : CountMap α) (k : α) :
    sumCounts (incr m k) = sumCounts m + 1 := by
  induction m with
  | nil => rfl
  | cons kv rest ih =>
    obtain ⟨a, n⟩ := kv
    by_cases h : a = k <;> simp [incr, h, sumCounts] at ih ⊢ <;> omega

theorem countOf_incr {α : Type} [DecidableEq α] (m : CountMap α) (k k' : α) :
    countOf (incr m k) k' = countOf m k' + (if k' = k then 1 else 0) := by
  induction m with
  | nil =>
    by_cases h : k' = k
    · subst h; simp [incr, countOf]
    · have h' : ¬ k = k' := fun hh => h hh.symm
      simp [incr, countOf, h, h']
  | cons kv rest ih =>
    obtain ⟨a, n⟩ := kv
    by_cases h : a = k
    · subst h
      by_cases h2 : a = k'
      · subst h2; simp [incr, countOf]
      · have h2' : ¬ k' = a := fun hh => h2 hh.symm
        simp [incr, countOf, h2, h2']
    · by_cases h2 : a = k'
      · subst h2
        have hk : ¬ a = k := h
        have hk' : ¬ a = k := h
        simp [incr, countOf, h, hk]
      · simp [incr, countOf, h, h2, ih]

theorem record_op_sums (s : AggState) (key : Int × String) (tag : String) :
    sumCounts (record_op s key tag).tag_count = sumCounts s.tag_count + 1 ∧
    sumCounts (record_op s key tag).combinations_count
      = sumCounts s.combinations_count + 1 := by
  simp [record_op, sumCounts_incr]

/-- Every iteration of the `for line in lines` loop either aborts with the
uncaught `KeyError`, or increments only `self.errors`, or performs one paired
`record`. -/
theorem processLine_cases (table : ProtoTable) (tag_map : TagMap)
    (s : AggState) (line : String) :
    processLine table tag_map s line = none ∨
    processLine table tag_map s line = some { s with errors := s.errors + 1 } ∨
    ∃ key, processLine table tag_map s line = some (record tag_map s key) := by
  unfold processLine
  split
  · exact Or.inr (Or.inl rfl)
  · split
    · exact Or.inr (Or.inl rfl)
    · split
      · exact Or.inl rfl
      · split
        · exact Or.inr (Or.inl rfl)
        · exact Or.inr (Or.inr ⟨_, rfl⟩)

/-- On a `KeyError`-free line the loop body never aborts, and it adds one to
the sum of each result map exactly when the line passes the spec's
validation predicate. -/
theorem processLine_sums (table : ProtoTable) (tag_map : TagMap)
    (s : AggState) (line : String) (hKE : keyErrorFree table line = true) :
    ∃ s2, processLine table tag_map s line = some s2 ∧
      sumCounts s2.combinations_count
        = sumCounts s.combinations_count
            + (if passes_validation line then 1 else 0) ∧
      sumCounts s2.tag_count
        = sumCounts s.tag_count + (if passes_validation line then 1 else 0) ∧
      s2.errors = s.errors + (if passes_validation line then 0 else 1) := by
  unfold processLine
  unfold keyErrorFree at hKE
  split
  next hlen =>
    have hv : passes_validation line = false := by
      unfold passes_validation
      have : ¬ (V2_FIELDS_COUNT ≤ (pySplit line).length) := Nat.not_le.mpr hlen
      simp [this]
    exact ⟨_, rfl, by simp [hv]⟩
  next hlen =>
    have hlen2 : V2_FIELDS_COUNT ≤ (pySplit line).length := Nat.le_of_not_lt hlen
    rw [if_pos hlen2] at hKE
    split
    next hp =>
      have hv : passes_validation line = false := by
        unfold passes_validation
        rw [hp]
        simp
      exact ⟨_, rfl, by simp [hv]⟩
    next n hp =>
      rw [hp] at hKE
      split
      next hl => simp [hl] at hKE
      next name hl =>
        split
        next hd =>
          have hv : passes_validation line = false := by
            unfold passes_validation
            rw [hd]
            simp
          exact ⟨_, rfl, by simp [hv]⟩
        next p hd =>
          have hv : passes_validation line = true := by
            unfold passes_validation
            rw [hp, hd]
            simp [hlen2]
          refine ⟨_, rfl, ?_⟩
          simp [hv, record, record_op, sumCounts_incr]

/-- Chunking with enough fuel is a partition: concatenating the chunks gives
back the original list. -/
theorem join_chunksOfAux {α : Type} (n : Nat) (hn : 0 < n) :
    ∀ (fuel : Nat) (l : List α), l.length ≤ fuel →
      (chunksOfAux n fuel l).flatten = l := by
  intro fuel
  induction fuel with
  | zero =>
    intro l h
    cases l with
    | nil => rfl
    | cons a t => simp at h
  | succ fuel ih =>
    intro l h
    cases l with
    | nil => rfl
    | cons a t =>
      rw [chunksOfAux, List.flatten_cons,
        ih ((a :: t).drop n)
          (by simp only [List.length_drop, List.length_cons] at h ⊢; omega)]
      exact List.take_append_drop n (a :: t)

theorem join_chunksOf {α : Type} (n : Nat) (hn : 0 < n) (l : List α) :
    (chunksOf n l).flatten = l :=
  join_chunksOfAux n hn l.length l (Nat.le_refl _)

/-- Chunk-level version of the validation count: on `KeyError`-free lines,
one `_analyze_flow_logs` call adds to the sum of `combinations_count` exactly
the number of its lines passing validation, and to `errors` the number
failing it. -/
theorem analyze_chunk_sums (table : ProtoTable) (tag_map : TagMap) :
    ∀ (lines : List String) (s : AggState),
      (∀ l ∈ lines, keyErrorFree table l = true) →
      sumCounts (analyze_chunk table tag_map s lines).combinations_count
          = sumCounts s.combinations_count
              + (lines.filter passes_validation).length ∧
      sumCounts (analyze_chunk table tag_map s lines).tag_count
          = sumCounts s.tag_count + (lines.filter passes_validation).length := by
  intro lines
  induction lines with
  | nil => intro s _; exact ⟨rfl, rfl⟩
  | cons line rest ih =>
    intro s h
    obtain ⟨s2, hs2, hcomb, htag, herr⟩ :=
      processLine_sums table tag_map s line (h line (by simp))
    have hrest : ∀ l ∈ rest, keyErrorFree table l = true :=
      fun l hl => h l (by simp [hl])
    obtain ⟨ihc, iht⟩ := ih s2 hrest
    rw [analyze_chunk, hs2]
    constructor
    · rw [ihc, hcomb, List.filter_cons]
      by_cases hv : passes_validation line
      · simp [hv]
        omega
      · simp [hv]
    · rw [iht, htag, List.filter_cons]
      by_cases hv : passes_validation line
      · simp [hv]
        omega
      · simp [hv]

/-- One `_analyze_flow_logs` call keeps the two result-map sums equal (with no
`KeyError`-freeness assumed: the abort case changes neither map). -/
theorem analyze_chunk_sum_eq (table : ProtoTable) (tag_map : TagMap) :
    ∀ (lines : List String) (s : AggState),
      sumCounts s.tag_count = sumCounts s.combinations_count →
      sumCounts (analyze_chunk table tag_map s lines).tag_count
        = sumCounts (analyze_chunk table tag_map s lines).combinations_count := by
  intro lines
  induction lines with
  | nil => intro s h; exact h
  | cons line rest ih =>
    intro s h
    rcases processLine_cases table tag_map s line with h0 | h0 | ⟨key, h0⟩ <;>
      rw [analyze_chunk, h0]
    · exact h
    · exact ih _ (by simpa using h)
    · exact ih _ (by simp [record, record_op, sumCounts_incr, h])

/-- Stream-level version of `analyze_chunk_sums`, folding over any chunk
list. -/
theorem foldl_chunks_sums (table : ProtoTable) (tag_map : TagMap) :
    ∀ (cs : List (List String)) (s : AggState),
      (∀ c ∈ cs, ∀ l ∈ c, keyErrorFree table l = true) →
      sumCounts ((cs.foldl (analyze_chunk table tag_map) s)).combinations_count
        = sumCounts s.combinations_count
            + ((cs.flatten).filter passes_validation).length := by
  intro cs
  induction cs with
  | nil => intro s _; simp
  | cons c rest ih =>
    intro s h
    simp only [List.foldl_cons, List.flatten_cons, List.filter_append,
      List.length_append]
    obtain ⟨hc, _⟩ := analyze_chunk_sums table tag_map c s (h c (by simp))
    rw [ih _ (fun c2 h2 l hl => h c2 (by simp [h2]) l hl), hc]
    omega

/-- Stream-level version of `analyze_chunk_sum_eq`. -/
theorem foldl_chunks_sum_eq (table : ProtoTable) (tag_map : TagMap) :
    ∀ (cs : List (List String)) (s : AggState),
      sumCounts s.tag_count = sumCounts s.combinations_count →
      sumCounts ((cs.foldl (analyze_chunk table tag_map) s)).tag_count
        = sumCounts ((cs.foldl (analyze_chunk table tag_map) s)).combinations_count := by
  intro cs
  induction cs with
  | nil => intro s h; exact h
  | cons c rest ih =>
    intro s h
    exact ih _ (analyze_chunk_sum_eq table tag_map c s h)

/-! ## Lemmas about the serialized Aggregator traces -/

theorem runTrace_countOf {n : Nat} (keys : Fin n → Int × String)
    (tags : Fin n → String) (hinj : Function.Injective keys) (i : Fin n) :
    ∀ (trace : List (Fin n)) (s : AggState),
      countOf (runTrace keys tags s trace).combinations_count (keys i)
        = countOf s.combinations_count (keys i) + trace.count i := by
  intro trace
  induction trace with
  | nil => intro s; simp [runTrace]
  | cons j rest ih =>
    intro s
    have step : runTrace keys tags s (j :: rest)
        = runTrace keys tags (record_op s (keys j) (tags j)) rest := rfl
    rw [step, ih]
    by_cases h : i = j
    · subst h
      simp [record_op, countOf_incr, List.count_cons]
      omega
    · have hk : keys i ≠ keys j := fun hh => h (hinj hh)
      have hj : ¬ j = i := fun hh => h hh.symm
      simp [record_op, countOf_incr, List.count_cons, hk, hj, h]

theorem runTrace_sums {n : Nat} (keys : Fin n → Int × String)
    (tags : Fin n → String) :
    ∀ (trace : List (Fin n)) (s : AggState),
      sumCounts (runTrace keys tags s trace).combinations_count
          = sumCounts s.combinations_count + trace.length ∧
      sumCounts (runTrace keys tags s trace).tag_count
          = sumCounts s.tag_count + trace.length := by
  intro trace
  induction trace with
  | nil => intro s; exact ⟨rfl, rfl⟩
  | cons j rest ih =>
    intro s
    have step : runTrace keys tags s (j :: rest)
        = runTrace keys tags (record_op s (keys j) (tags j)) rest := rfl
    obtain ⟨ihc, iht⟩ := ih (record_op s (keys j) (tags j))
    rw [step]
    constructor
    · rw [ihc]; simp [record_op, sumCounts_incr]; omega
    · rw [iht]; simp [record_op, sumCounts_incr]; omega

theorem length_eq_sum_count {n : Nat} (trace : List (Fin n)) :
    trace.length = ∑ i : Fin n, trace.count i := by
  induction trace with
  | nil => simp
  | cons j rest ih =>
    rw [List.length_cons, ih]
    have hcount : ∀ i : Fin n, List.count i (j :: rest)
        = List.count i rest + if i = j then 1 else 0 := by
      intro i
      rw [List.count_cons]
      by_cases h : i = j
      · subst h; simp
      · have h' : ¬ j = i := fun hh => h hh.symm
        simp [h, h']
    simp only [hcount, Finset.sum_add_distrib]
    simp

/-! ## Claims -/

/-- C1 (corrected): after a run, the sum of all `combinations_count` values
equals the number of input lines passing the claimed validation (at least 14
whitespace-separated fields, destination-port and protocol-number fields both
numeric) — provided that no line's parsed protocol number is absent from the
protocol table.  Without that proviso the claim fails (see the
counterexample): a line whose protocol number misses the table passes the
claimed validation but raises an uncaught `KeyError`, aborting its chunk, so
nothing is counted for it or the lines after it in the chunk. -/
theorem C1_sum_combinations_eq_validated (table : ProtoTable)
    (tag_map : TagMap) (lines : List String)
    (hKE : lines.all (keyErrorFree table) = true) :
    sumCounts (analyze_stream table tag_map initState lines).combinations_count
      = (lines.filter passes_validation).length := by
  have hKE2 : ∀ l ∈ lines, keyErrorFree table l = true := by
    simpa using List.all_eq_true.mp hKE
  have hjoin := join_chunksOf CHUNK_SIZE (by norm_num [CHUNK_SIZE]) lines
  unfold analyze_stream
  rw [foldl_chunks_sums table tag_map _ _
    (fun c hc l hl => hKE2 l (by rw [← hjoin]; exact List.mem_flatten.mpr ⟨c, hc, hl⟩))]
  rw [hjoin]
  simp [initState, sumCounts]

/-- C1 counterexample: `lineProto999` has 14 fields and numeric port and
protocol fields, so it passes the claim's validation, but its protocol number
999 is absent from `tableTcp`; the run counts nothing, so the claimed
equality `0 = 1` is false. -/
theorem C1_counterexample :
    ¬ (sumCounts (analyze_stream tableTcp [] initState
          [lineProto999]).combinations_count
        = (List.filter passes_validation [lineProto999]).length) := by
  decide

/-- C1 witness: a run over one valid line and one malformed line, with every
protocol number present in the table. -/
theorem C1_witness :
    ([lineValid, "abc"].all (keyErrorFree tableTcp) = true) ∧
    sumCounts (analyze_stream tableTcp [] initState
        [lineValid, "abc"]).combinations_count
      = (List.filter passes_validation [lineValid, "abc"]).length :=
  ⟨by decide,
   C1_sum_combinations_eq_validated tableTcp [] [lineValid, "abc"] (by decide)⟩

/-- C2 (code bug): the claim says a protocol number absent from the protocol
table increments the error counter, discards that line, and processing
continues.  In the code the `except (ValueError, IndexError)` clause does not
cover the `KeyError` raised by `self.table[...]`, so that line aborts the
whole remainder of its chunk: on a chunk holding `lineProto999` followed by
the perfectly valid `lineValid`, the state is left untouched — the error
counter stays 0 and the valid line is never counted. -/
theorem C2_keyerror_aborts_chunk :
    analyze_chunk tableTcp [] initState [lineProto999, lineValid] = initState ∧
    (analyze_chunk tableTcp [] initState [lineProto999, lineValid]).errors
      = 0 := by
  decide

/-- C3 (confirmed): for a (port, name) pair with `name` lowercase, resolving
a record with that pair — the lookup key the code builds is
`(int(dstport), protocol_name.lower())` — increments `tag_count` for the
mapped tag when the pair is present in the tag map, and for the sentinel
"Untagged" when it is absent; membership is exact equality of the pair, with
no partial or prefix matching. -/
theorem C3_exact_match_resolution (tag_map : TagMap) (port : Int)
    (name : String) (hlc : pyLower name = name) (s : AggState) :
    countOf (record tag_map s (port, pyLower name)).tag_count
        ((lookup tag_map (port, name)).getD "Untagged")
      = countOf s.tag_count ((lookup tag_map (port, name)).getD "Untagged")
          + 1 := by
  rw [hlc]
  cases h : lookup tag_map (port, name) with
  | none => simp [record, record_op, h, countOf_incr]
  | some t => simp [record, record_op, h, countOf_incr]

/-- C3 witness: the pair (49153, "tcp") present in `tagMapSv` resolves to its
mapped tag "sv_P1". -/
theorem C3_witness :
    (pyLower "tcp" = "tcp") ∧
    countOf (record tagMapSv initState (49153, pyLower "tcp")).tag_count
        ((lookup tagMapSv ((49153 : Int), "tcp")).getD "Untagged")
      = countOf initState.tag_count
          ((lookup tagMapSv ((49153 : Int), "tcp")).getD "Untagged") + 1 :=
  ⟨by decide, C3_exact_match_resolution tagMapSv 49153 "tcp" (by decide)
    initState⟩

/-- C4 (code bug): the claim says every row with a non-integer first column
is skipped individually without affecting other rows.  In
`ProtoMappings.process` the `try` wraps the whole loop, so the first such row
ends the loop and every later row is silently dropped: with rows
[["17", "UDP"], ["146-252", "Unassigned"], ["6", "TCP"]] only (17, "udp") is
loaded — the claim expects (6, "tcp") to be loaded too. -/
theorem C4_nonnumeric_row_stops_loading :
    protoMappings_process [["17", "UDP"], ["146-252", "Unassigned"],
        ["6", "TCP"]]
      = Except.ok [(17, "udp")] := by
  rfl

/-- C5 (confirmed): the spec's mixed batch over `tagMapSv` and `tableTcp`
yields exactly one error (the empty line), tag counts sv_P1 = 2 and
Untagged = 1 (2 entries), and three combination entries each of count 1. -/
theorem C5_mixed_batch :
    (analyze_chunk tableTcp tagMapSv initState mixedLines).errors = 1 ∧
    (analyze_chunk tableTcp tagMapSv initState mixedLines).tag_count.length
      = 2 ∧
    countOf (analyze_chunk tableTcp tagMapSv initState mixedLines).tag_count
      "sv_P1" = 2 ∧
    countOf (analyze_chunk tableTcp tagMapSv initState mixedLines).tag_count
      "Untagged" = 1 ∧
    (analyze_chunk tableTcp tagMapSv initState mixedLines).combinations_count
      = [((49153, "tcp"), 1), ((49154, "tcp"), 1), ((49155, "tcp"), 1)] := by
  decide

/-- C6 counterexample: the claim says a line whose destination-port field is
"-1" increments the error counter and is discarded.  Python `int()` parses
"-1", so `lineNegPort` is counted normally: the error counter stays 0 and
the combination ((-1), "tcp") is recorded. -/
theorem C6_counterexample :
    (analyze_chunk tableTcp [] initState [lineNegPort]).errors = 0 ∧
    countOf (analyze_chunk tableTcp [] initState
        [lineNegPort]).combinations_count (-1, "tcp") = 1 := by
  decide

/-- C6 (corrected): for a processed line (one that does not abort on a
`KeyError`), being counted requires both the destination-port and
protocol-number fields to parse as Python integers, and a line where either
field fails integer parsing increments the error counter and is discarded
unchanged otherwise — but `int()` accepts signed values, so "-1" parses and
a negative destination port is counted rather than rejected. -/
theorem C6_signed_int_parse (table : ProtoTable) (tag_map : TagMap)
    (s : AggState) (line : String) (s2 : AggState)
    (hrun : processLine table tag_map s line = some s2) :
    (s2.errors = s.errors →
      (pyInt ((pySplit line).getD V2_DST_PORT_IDX "")).isSome = true ∧
      (pyInt ((pySplit line).getD V2_PROTO_NUM_IDX "")).isSome = true ∧
      sumCounts s2.combinations_count
        = sumCounts s.combinations_count + 1) ∧
    (((pyInt ((pySplit line).getD V2_DST_PORT_IDX "")).isSome = false ∨
      (pyInt ((pySplit line).getD V2_PROTO_NUM_IDX "")).isSome = false) →
      s2 = { s with errors := s.errors + 1 }) ∧
    pyInt "-1" = some (-1) := by
  unfold processLine at hrun
  split at hrun
  next hlen =>
    cases hrun
    exact ⟨fun he => absurd he (by simp), fun _ => rfl, by decide⟩
  next hlen =>
    split at hrun
    next hp =>
      cases hrun
      refine ⟨fun he => absurd he (by simp), fun _ => rfl, by decide⟩
    next protoNum hp =>
      split at hrun
      next hl => exact Option.noConfusion hrun
      next protocol_name hl =>
        split at hrun
        next hd =>
          cases hrun
          refine ⟨fun he => absurd he (by simp), fun _ => rfl, by decide⟩
        next dstport hd =>
          cases hrun
          refine ⟨fun _ => ⟨by rw [hd]; rfl, by rw [hp]; rfl, ?_⟩, ?_,
            by decide⟩
          · simp [record, record_op, sumCounts_incr]
          · rintro (hbad | hbad)
            · rw [hd] at hbad; exact Bool.noConfusion hbad
            · rw [hp] at hbad; exact Bool.noConfusion hbad

/-- C6 witness: `lineNegPort` is processed without abort; its fields parse
and it is counted. -/
theorem C6_witness :
    (processLine tableTcp [] initState lineNegPort
      = some (AggState.mk 0 [("Untagged", 1)] [((-1, "tcp"), 1)])) ∧
    (((AggState.mk 0 [("Untagged", 1)] [((-1, "tcp"), 1)]).errors
        = initState.errors →
      (pyInt ((pySplit lineNegPort).getD V2_DST_PORT_IDX "")).isSome = true ∧
      (pyInt ((pySplit lineNegPort).getD V2_PROTO_NUM_IDX "")).isSome
        = true ∧
      sumCounts (AggState.mk 0 [("Untagged", 1)]
          [((-1, "tcp"), 1)]).combinations_count
        = sumCounts initState.combinations_count + 1) ∧
    (((pyInt ((pySplit lineNegPort).getD V2_DST_PORT_IDX "")).isSome
        = false ∨
      (pyInt ((pySplit lineNegPort).getD V2_PROTO_NUM_IDX "")).isSome
        = false) →
      AggState.mk 0 [("Untagged", 1)] [((-1, "tcp"), 1)]
        = { initState with errors := initState.errors + 1 }) ∧
    pyInt "-1" = some (-1)) :=
  ⟨by decide,
   C6_signed_int_parse tableTcp [] initState lineNegPort _ (by decide)⟩

/-- C7 counterexample: with no input path but an output path configured
(`outputGiven = true`), `analyze_flow_logs` returns before reaching
`_write_output_file`, so no report is written — the claim expected report
writing to still run. -/
theorem C7_counterexample :
    (analyze_flow_logs none true tableTcp tagMapSv initState).2 = none := by
  rfl

/-- C7 (corrected): absence of a configuration path skips the corresponding
stage — no tag-mapping path leaves the tag map empty so every record resolves
to "Untagged", and no output path writes no report — but with no input path
the early return skips BOTH the streaming stage and the report write (the
report is written only at the end of the streaming stage), leaving the state
untouched and producing no report even when an output path is given. -/
theorem C7_config_skipping :
    (read_mappings_file none = Except.ok []) ∧
    (∀ (s : AggState) (key : Int × String),
      (record [] s key).tag_count = incr s.tag_count "Untagged") ∧
    (∀ (lines : List String) (table : ProtoTable) (tag_map : TagMap)
        (s : AggState),
      (analyze_flow_logs (some lines) false table tag_map s).2 = none) ∧
    (∀ (outputGiven : Bool) (table : ProtoTable) (tag_map : TagMap)
        (s : AggState),
      analyze_flow_logs none outputGiven table tag_map s = (s, none)) :=
  ⟨rfl, fun _ _ => rfl, fun _ _ _ _ => rfl, fun _ _ _ _ => rfl⟩

/-- C8 (confirmed): under the lock each paired update is one atomic unit, so
any interleaving of N concurrent callers is a serialization trace of atomic
`record_op`s.  For every trace in which each of the N callers (with distinct
keys) performs exactly M operations, the final combination count of every
caller's key is exactly M and both maps total exactly N*M increments — no
lost updates under any interleaving. -/
theorem C8_no_lost_updates {n M : Nat} (keys : Fin n → Int × String)
    (tags : Fin n → String) (hinj : Function.Injective keys)
    (trace : List (Fin n)) (hM : ∀ i, trace.count i = M) :
    (∀ i, countOf (runTrace keys tags initState trace).combinations_count
        (keys i) = M) ∧
    sumCounts (runTrace keys tags initState trace).combinations_count
      = n * M ∧
    sumCounts (runTrace keys tags initState trace).tag_count = n * M := by
  have hlen : trace.length = n * M := by
    rw [length_eq_sum_count]
    simp [hM, Finset.sum_const, Finset.card_univ]
  refine ⟨fun i => ?_, ?_, ?_⟩
  · rw [runTrace_countOf keys tags hinj i trace initState, hM i]
    simp [initState, countOf]
  · obtain ⟨hc, _⟩ := runTrace_sums keys tags trace initState
    rw [hc, hlen]
    simp [initState, sumCounts]
  · obtain ⟨_, ht⟩ := runTrace_sums keys tags trace initState
    rw [ht, hlen]
    simp [initState, sumCounts]

/-- C8 witness: two callers, two operations each, interleaved 0,1,1,0. -/
theorem C8_witness :
    countOf (runTrace keys2 tags2 initState trace2).combinations_count
      (80, "tcp") = 2 ∧
    sumCounts (runTrace keys2 tags2 initState trace2).combinations_count
      = 2 * 2 ∧
    sumCounts (runTrace keys2 tags2 initState trace2).tag_count = 2 * 2 := by
  obtain ⟨h1, h2, h3⟩ :=
    @C8_no_lost_updates 2 2 keys2 tags2 (by decide) trace2 (by decide)
  exact ⟨h1 0, h2, h3⟩

/-- C9 (confirmed): after processing any sequence of input lines from the
initial state, the sum of all `tag_count` values equals the sum of all
`combinations_count` values: a counted line increments both maps together
inside one loop iteration, and no path increments one without the other. -/
theorem C9_sum_tag_eq_sum_comb (table : ProtoTable) (tag_map : TagMap)
    (lines : List String) :
    sumCounts (analyze_stream table tag_map initState lines).tag_count
      = sumCounts
          (analyze_stream table tag_map initState lines).combinations_count :=
  foldl_chunks_sum_eq table tag_map (chunksOf CHUNK_SIZE lines) initState rfl

/-- C10 (confirmed): a mapping-file path that cannot be opened is treated as
an empty file — `read_csv_file` absorbs the `IOError` and returns the empty
buffer, both loaders then succeed with an empty table, no error reaches the
caller, and with an empty tag map every record resolves to "Untagged". -/
theorem C10_unopenable_file_is_empty :
    read_csv_file none = ([] : List (List String)) ∧
    read_mappings_file (some none) = Except.ok [] ∧
    (∀ socketTable : ProtoTable,
      read_proto_mappings socketTable (some none) = Except.ok []) ∧
    (∀ (s : AggState) (key : Int × String),
      (record [] s key).tag_count = incr s.tag_count "Untagged") :=
  ⟨rfl, rfl, fun _ => rfl, fun _ _ => rfl⟩

end FlowLog
